import Mathlib

/-!
Verification of the spaced-repetition scheduling engine of the BrainTrack
memory-journaling application.

The embedding below follows the TypeScript source:

* `calculateNextReview` (reusable client module) — the switch on the score,
  the multiplicative jitter, the floor and the clamp to one day.
* `aiService.optimizeReviewInterval` / `predictOptimalInterval` /
  `extractMemoryFeatures` — the linear model supplying the base interval
  used by the review route.
* the inline scheduling logic of `POST /api/memories/:id/review` in
  `server/routes.ts` — score adjustment of the predicted base interval,
  timestamp arithmetic, history append and state update.
* `MemStorage.createMemory` and `MemStorage.getMemoriesDueForReview` in
  `server/storage.ts`.

JavaScript numbers are modelled as `ℚ` (rationals) where fractional values
occur, with `Int.floor` for `Math.floor`; timestamps are `ℤ` epoch
milliseconds; `Math.random() * 0.2 - 0.1` is modelled by an explicit jitter
parameter `j : ℚ` whose production range is `[-1/10, 1/10)`.
-/

/-- Milliseconds in one day: the route computes
`new Date(now.getTime() + intervalDays * 24 * 60 * 60 * 1000)`. -/
def msPerDay : ℤ := 86400000

/-- One entry of a memory's `reviewHistory`, as pushed by the review route:
`{timestamp, score, interval, notes}`.  `notes: notes || null` is modelled
as an `Option String`. -/
structure ReviewRecord where
  timestamp : ℤ
  score : ℤ
  interval : ℤ
  notes : Option String
  deriving DecidableEq

/-- The persistent scheduling state attached to one memory record, with the
fields read by the scheduler and by the AI interval predictor (`emotion`,
the description's length, the number of tags). -/
structure MemoryState where
  userId : ℕ
  emotion : ℤ
  descriptionLength : ℕ
  tagsCount : ℕ
  reviewCount : ℕ
  lastScore : ℤ
  nextReview : ℤ
  reviewHistory : List ReviewRecord
  deriving DecidableEq

/-- Interval in days computed by the reusable module `calculateNextReview`:
a switch on the score (`0 → 1`, `1 → max(1, floor(reviewCount * 0.5))`,
`2 → max(1, reviewCount * 2)`, `3 → max(1, reviewCount * 4)`, any other
score keeps the initial value `1`), then multiplicative jitter, floor and
clamp: `Math.max(1, Math.floor(intervalDays * (1 + jitter)))`. -/
def calcIntervalDays (score : ℤ) (reviewCount : ℕ) (j : ℚ) : ℤ :=
  let intervalDays : ℤ :=
    if score = 0 then 1
    else if score = 1 then max 1 ⌊(reviewCount : ℚ) * (1 / 2)⌋
    else if score = 2 then max 1 ((reviewCount : ℤ) * 2)
    else if score = 3 then max 1 ((reviewCount : ℤ) * 4)
    else 1
  max 1 ⌊(intervalDays : ℚ) * (1 + j)⌋

/-- The record returned by `calculateNextReview`. -/
structure ReviewResult where
  score : ℤ
  interval : ℤ
  nextReview : ℤ
  deriving DecidableEq

/-- The reusable module `calculateNextReview(score, reviewCount, lastScore = 0)`.
`now` models `new Date()`; `setDate(getDate() + intervalDays)` is modelled as
adding `intervalDays` fixed-length days.  The `lastScore` parameter is
declared in the source (with default `0`) and never read in the body. -/
def calculateNextReview (score : ℤ) (reviewCount : ℕ) (lastScore : ℤ)
    (j : ℚ) (now : ℤ) : ReviewResult :=
  let intervalDays := calcIntervalDays score reviewCount j
  { score := score
    interval := intervalDays
    nextReview := now + intervalDays * msPerDay }

/-- `aiService.extractMemoryFeatures(memory, userPerformance)`:
`[emotion / 10, reviewCount, lastScore / 3, accuracyRate || 0,
description.length / 1000, tags?.length || 0]`. -/
def extractMemoryFeatures (m : MemoryState) (accuracyRate : ℚ) : List ℚ :=
  [(m.emotion : ℚ) / 10, (m.reviewCount : ℚ), (m.lastScore : ℚ) / 3,
    accuracyRate, (m.descriptionLength : ℚ) / 1000, (m.tagsCount : ℚ)]

/-- The fixed weights `[2, 1.5, 3, 2, 0.5, 0.3]` of the linear model in
`aiService.predictOptimalInterval`. -/
def intervalWeights : List ℚ := [2, 3 / 2, 3, 2, 1 / 2, 3 / 10]

/-- `aiService.predictOptimalInterval(features)`: the dot product of the
features with the fixed weights, clamped by `Math.max(1, result)`. -/
def predictOptimalInterval (features : List ℚ) : ℚ :=
  max 1 (List.zipWith (fun a b => a * b) features intervalWeights).sum

/-- JavaScript `Math.round`: round half toward positive infinity. -/
def jsRound (q : ℚ) : ℤ := ⌊q + 1 / 2⌋

/-- `aiService.optimizeReviewInterval(memory, userPerformance)`:
`Math.max(1, Math.round(prediction))`. -/
def optimizeReviewInterval (m : MemoryState) (accuracyRate : ℚ) : ℤ :=
  max 1 (jsRound (predictOptimalInterval (extractMemoryFeatures m accuracyRate)))

/-- The interval-days computation inline in the handler of
`POST /api/memories/:id/review`: start from the AI-optimized interval, then
switch on the score (`0 → 1`, `1 → Math.max(1, Math.floor(intervalDays * 0.7))`,
`2 → intervalDays`, `3 → Math.floor(intervalDays * 1.5)`); a score outside
the four cases leaves the AI-optimized interval unchanged — the handler
performs no validation of `score`. -/
def routeIntervalDays (m : MemoryState) (accuracyRate : ℚ) (score : ℤ) : ℤ :=
  let optimized := optimizeReviewInterval m accuracyRate
  if score = 0 then 1
  else if score = 1 then max 1 ⌊(optimized : ℚ) * (7 / 10)⌋
  else if score = 2 then optimized
  else if score = 3 then ⌊(optimized : ℚ) * (3 / 2)⌋
  else optimized

/-- The state update performed by the review route handler: increment
`reviewCount`, compute the interval, set `nextReview` to `now` plus the
interval in days, push one record onto `reviewHistory`, record the score as
`lastScore`. -/
def reviewRoute (m : MemoryState) (accuracyRate : ℚ) (score : ℤ)
    (notes : Option String) (now : ℤ) : MemoryState :=
  let newCount := m.reviewCount + 1
  let intervalDays := routeIntervalDays m accuracyRate score
  let nextReview := now + intervalDays * msPerDay
  let newHistory := m.reviewHistory ++
    [{ timestamp := now, score := score, interval := intervalDays, notes := notes }]
  { m with
    nextReview := nextReview
    reviewCount := newCount
    lastScore := score
    reviewHistory := newHistory }

/-- `MemStorage.createMemory`: a new memory is immediately due
(`nextReview := now`), with `reviewCount 0`, `lastScore 0` and an empty
`reviewHistory`. -/
def createMemory (userId : ℕ) (emotion : ℤ) (descriptionLength tagsCount : ℕ)
    (now : ℤ) : MemoryState :=
  { userId := userId
    emotion := emotion
    descriptionLength := descriptionLength
    tagsCount := tagsCount
    reviewCount := 0
    lastScore := 0
    nextReview := now
    reviewHistory := [] }

/-- The due test used by `MemStorage.getMemoriesDueForReview`:
`new Date(memory.nextReview) <= now`. -/
def isDue (m : MemoryState) (now : ℤ) : Bool := m.nextReview ≤ now

/-- `MemStorage.getMemoriesDueForReview(userId)`: the user's memories whose
`nextReview` is not after `now`, sorted ascending by `nextReview`. -/
def getMemoriesDueForReview (userId : ℕ) (now : ℤ)
    (ms : List MemoryState) : List MemoryState :=
  (ms.filter (fun m => m.userId == userId && isDue m now)).mergeSort
    (fun a b => a.nextReview ≤ b.nextReview)

/-- States reachable from memory creation by applications of the review
route. -/
inductive ReachableState : MemoryState → Prop
  | created (userId : ℕ) (emotion : ℤ) (descriptionLength tagsCount : ℕ) (now : ℤ) :
      ReachableState (createMemory userId emotion descriptionLength tagsCount now)
  | reviewed (m : MemoryState) (accuracyRate : ℚ) (score : ℤ)
      (notes : Option String) (now : ℤ) :
      ReachableState m → ReachableState (reviewRoute m accuracyRate score notes now)

lemma one_le_calcIntervalDays (score : ℤ) (reviewCount : ℕ) (j : ℚ) :
    1 ≤ calcIntervalDays score reviewCount j :=
  le_max_left 1 _

lemma one_le_optimizeReviewInterval (m : MemoryState) (accuracyRate : ℚ) :
    1 ≤ optimizeReviewInterval m accuracyRate :=
  le_max_left 1 _

lemma one_le_routeIntervalDays (m : MemoryState) (accuracyRate : ℚ) (score : ℤ) :
    1 ≤ routeIntervalDays m accuracyRate score := by
  have hopt := one_le_optimizeReviewInterval m accuracyRate
  unfold routeIntervalDays
  split_ifs
  · exact le_refl 1
  · exact le_max_left 1 _
  · exact hopt
  · have hq : (1 : ℚ) ≤ (optimizeReviewInterval m accuracyRate : ℚ) := by
      exact_mod_cast hopt
    refine Int.le_floor.2 ?_
    push_cast
    nlinarith
  · exact hopt

lemma zero_jitter_clamp (b : ℤ) (hb : 1 ≤ b) :
    max 1 ⌊(b : ℚ) * (1 + 0)⌋ = b := by
  rw [add_zero, mul_one, Int.floor_intCast]
  exact max_eq_right hb

/-- Claim C1: with zero jitter, `calculateNextReview`'s interval is `1` for
score 0 regardless of the review count, `max(1, floor(count * 0.5))` for
score 1, `max(1, count * 2)` for score 2 and `max(1, count * 4)` for
score 3; in particular the interval at `(score 2, count 3)` is 6 and at
`(score 3, count 2)` is 8. -/
theorem computeInterval_zero_jitter_table (c : ℕ) :
    calcIntervalDays 0 c 0 = 1 ∧
    calcIntervalDays 1 c 0 = max 1 ⌊(c : ℚ) * (1 / 2)⌋ ∧
    calcIntervalDays 2 c 0 = max 1 ((c : ℤ) * 2) ∧
    calcIntervalDays 3 c 0 = max 1 ((c : ℤ) * 4) ∧
    calcIntervalDays 2 3 0 = 6 ∧
    calcIntervalDays 3 2 0 = 8 := by
  refine ⟨?_, ?_, ?_, ?_, ?_, ?_⟩
  · simpa [calcIntervalDays] using zero_jitter_clamp 1 le_rfl
  · simpa [calcIntervalDays] using
      zero_jitter_clamp (max 1 ⌊(c : ℚ) * (1 / 2)⌋) (le_max_left 1 _)
  · simpa [calcIntervalDays] using
      zero_jitter_clamp (max 1 ((c : ℤ) * 2)) (le_max_left 1 _)
  · simpa [calcIntervalDays] using
      zero_jitter_clamp (max 1 ((c : ℤ) * 4)) (le_max_left 1 _)
  · have h := zero_jitter_clamp (max 1 ((3 : ℤ) * 2)) (le_max_left 1 _)
    simpa [calcIntervalDays] using h
  · have h := zero_jitter_clamp (max 1 ((2 : ℤ) * 4)) (le_max_left 1 _)
    simpa [calcIntervalDays] using h

/-- Claim C7: for every valid score in `{0,1,2,3}` and every review count,
the interval returned after jitter, flooring and clamping is at least one
day — in the reusable module for every jitter value, and likewise in the
review route's inline computation for every memory state and accuracy
rate. -/
theorem interval_at_least_one_day (score : ℤ)
    (hs : score = 0 ∨ score = 1 ∨ score = 2 ∨ score = 3)
    (count : ℕ) (j : ℚ) (m : MemoryState) (accuracyRate : ℚ) :
    1 ≤ calcIntervalDays score count j ∧
    1 ≤ routeIntervalDays m accuracyRate score :=
  ⟨one_le_calcIntervalDays score count j,
    one_le_routeIntervalDays m accuracyRate score⟩

/-- Witness for claim C7 at score 2, count 0, zero jitter, a fresh memory. -/
theorem interval_at_least_one_day_witness :
    1 ≤ calcIntervalDays 2 0 0 ∧
    1 ≤ routeIntervalDays (createMemory 1 0 0 0 0) 0 2 :=
  interval_at_least_one_day 2 (by decide) 0 0 (createMemory 1 0 0 0 0) 0

/-- Claim C8: for score 0 (Again) and every review count, every jitter in
`[-10%, +10%]` yields exactly one day: the base interval 1 is multiplied by
`1 + jitter`, the floor gives 0 or 1, and the clamp to a minimum of 1
restores 1, so jitter never changes the Again result. -/
theorem again_score_jitter_invariant (count : ℕ) (j : ℚ)
    (hlo : -(1 / 10) ≤ j) (hhi : j ≤ 1 / 10) :
    calcIntervalDays 0 count j = 1 ∧
    (⌊((1 : ℤ) : ℚ) * (1 + j)⌋ = 0 ∨ ⌊((1 : ℤ) : ℚ) * (1 + j)⌋ = 1) := by
  have h0 : 0 ≤ ⌊((1 : ℤ) : ℚ) * (1 + j)⌋ := by
    refine Int.floor_nonneg.2 ?_
    push_cast
    nlinarith
  have h2 : ⌊((1 : ℤ) : ℚ) * (1 + j)⌋ < 2 := by
    refine Int.floor_lt.2 ?_
    push_cast
    nlinarith
  constructor
  · have : calcIntervalDays 0 count j = max 1 ⌊((1 : ℤ) : ℚ) * (1 + j)⌋ := by
      simp [calcIntervalDays]
    rw [this]
    omega
  · omega

/-- Witness for claim C8 at count 5 and jitter `-1/10`. -/
theorem again_score_jitter_invariant_witness :
    calcIntervalDays 0 5 (-(1 / 10)) = 1 ∧
    (⌊((1 : ℤ) : ℚ) * (1 + -(1 / 10))⌋ = 0 ∨
      ⌊((1 : ℤ) : ℚ) * (1 + -(1 / 10))⌋ = 1) :=
  again_score_jitter_invariant 5 (-(1 / 10)) le_rfl (by norm_num)

/-- Claim C10: `calculateNextReview` never depends on its `lastScore`
parameter — two calls differing only in `lastScore` return identical
results for every score, review count, jitter and timestamp. -/
theorem lastScore_has_no_influence (score : ℤ) (count : ℕ) (ls ls' : ℤ)
    (j : ℚ) (now : ℤ) :
    calculateNextReview score count ls j now =
      calculateNextReview score count ls' j now := rfl

/-- Claim C4: applying a review through the route handler always produces a
state whose `reviewCount` is the input's `reviewCount` plus exactly one, for
every state, outcome, accuracy rate and timestamp. -/
theorem reviewCount_increments_by_one (m : MemoryState) (accuracyRate : ℚ)
    (score : ℤ) (notes : Option String) (now : ℤ) :
    (reviewRoute m accuracyRate score notes now).reviewCount =
      m.reviewCount + 1 := rfl

/-- Claim C9: the next-review instant produced by applying a review is never
earlier than the instant `now` at which it was computed — for the route
handler on every state, outcome, accuracy rate and timestamp, and likewise
for the reusable module's result. -/
theorem nextReview_never_backdated (m : MemoryState) (accuracyRate : ℚ)
    (score : ℤ) (notes : Option String) (now : ℤ) (count : ℕ) (ls : ℤ) (j : ℚ) :
    now ≤ (reviewRoute m accuracyRate score notes now).nextReview ∧
    now ≤ (calculateNextReview score count ls j now).nextReview := by
  have h1 := one_le_routeIntervalDays m accuracyRate score
  have h2 := one_le_calcIntervalDays score count j
  constructor
  · show now ≤ now + routeIntervalDays m accuracyRate score * msPerDay
    have hm : (0 : ℤ) ≤ routeIntervalDays m accuracyRate score * msPerDay :=
      mul_nonneg (by omega) (by norm_num [msPerDay])
    omega
  · show now ≤ now + calcIntervalDays score count j * msPerDay
    have hm : (0 : ℤ) ≤ calcIntervalDays score count j * msPerDay :=
      mul_nonneg (by omega) (by norm_num [msPerDay])
    omega

lemma reachable_history_length {s : MemoryState} (h : ReachableState s) :
    s.reviewHistory.length = s.reviewCount := by
  induction h with
  | created userId emotion descriptionLength tagsCount now => rfl
  | reviewed m accuracyRate score notes now hm ih =>
    show (m.reviewHistory ++
      [({ timestamp := now, score := score,
          interval := routeIntervalDays m accuracyRate score,
          notes := notes } : ReviewRecord)]).length = m.reviewCount + 1
    simp [List.length_append, ih]

/-- Claim C5: applying a review yields a history equal to the old history
with exactly one record appended (so every prior entry is structurally
unchanged), and consequently every state reachable from memory creation
(empty history, `reviewCount 0`) has `history.length = reviewCount`. -/
theorem history_appends_one_record (s : MemoryState) (h : ReachableState s) :
    (∀ accuracyRate score notes now,
      (reviewRoute s accuracyRate score notes now).reviewHistory =
        s.reviewHistory ++
          [{ timestamp := now, score := score,
             interval := routeIntervalDays s accuracyRate score,
             notes := notes }]) ∧
    s.reviewHistory.length = s.reviewCount :=
  ⟨fun _ _ _ _ => rfl, reachable_history_length h⟩

/-- Witness for claim C5 at a freshly created memory. -/
theorem history_appends_one_record_witness :
    (createMemory 1 0 0 0 0).reviewHistory.length =
      (createMemory 1 0 0 0 0).reviewCount :=
  (history_appends_one_record (createMemory 1 0 0 0 0)
    (ReachableState.created 1 0 0 0 0)).2

/-- Claim C6: the due test is boundary-inclusive: `isDue` is true exactly
when `nextReview ≤ now`, true at equality, false when `nextReview` is later
by any positive amount, and a memory is in the due-for-review queue exactly
when it belongs to the user's stored memories and is due. -/
theorem isDue_boundary_inclusive (m : MemoryState) (now : ℤ) :
    (isDue m now = true ↔ m.nextReview ≤ now) ∧
    (m.nextReview = now → isDue m now = true) ∧
    (∀ d : ℤ, 0 < d → m.nextReview = now + d → isDue m now = false) ∧
    (∀ userId ms, m ∈ getMemoriesDueForReview userId now ms ↔
      (m ∈ ms ∧ m.userId = userId ∧ m.nextReview ≤ now)) := by
  refine ⟨by simp [isDue], ?_, ?_, ?_⟩
  · intro h
    simp [isDue, h]
  · intro d hd h
    simp only [isDue, h, decide_eq_false_iff_not]
    omega
  · intro userId ms
    rw [getMemoriesDueForReview, (List.mergeSort_perm _ _).mem_iff,
      List.mem_filter]
    simp [isDue, and_assoc]

/-- Witness for claim C6 at a memory due exactly now. -/
theorem isDue_boundary_inclusive_witness :
    isDue (createMemory 1 0 0 0 5) 5 = true :=
  (isDue_boundary_inclusive (createMemory 1 0 0 0 5) 5).2.1 rfl

/-- Claim C2 (code evaluation): the review route handler performs no score
validation.  At a freshly created memory, submitting the out-of-range score
`4` is accepted: `reviewCount` becomes 1, `lastScore` becomes 4, a history
record with score 4 is appended, and the resulting state differs from the
input state — no `InvalidScore` failure and no unchanged state. -/
theorem invalid_score_is_accepted_and_mutates :
    (reviewRoute (createMemory 1 0 0 0 0) 0 4 none 0).reviewCount = 1 ∧
    (reviewRoute (createMemory 1 0 0 0 0) 0 4 none 0).lastScore = 4 ∧
    (reviewRoute (createMemory 1 0 0 0 0) 0 4 none 0).reviewHistory =
      [{ timestamp := 0, score := 4, interval := 1, notes := none }] ∧
    reviewRoute (createMemory 1 0 0 0 0) 0 4 none 0 ≠
      createMemory 1 0 0 0 0 := by
  have hopt : optimizeReviewInterval (createMemory 1 0 0 0 0) 0 = 1 := by
    norm_num [optimizeReviewInterval, predictOptimalInterval,
      extractMemoryFeatures, intervalWeights, jsRound, createMemory,
      List.zipWith]
  have hint : routeIntervalDays (createMemory 1 0 0 0 0) 0 4 = 1 := by
    norm_num [routeIntervalDays, hopt]
  refine ⟨rfl, rfl, ?_, ?_⟩
  · show (createMemory 1 0 0 0 0).reviewHistory ++
      [({ timestamp := 0, score := 4,
          interval := routeIntervalDays (createMemory 1 0 0 0 0) 0 4,
          notes := none } : ReviewRecord)] = _
    rw [hint]
    rfl
  · intro h
    have hc := congrArg MemoryState.reviewCount h
    simp [reviewRoute, createMemory] at hc

/-- The concrete memory state of the claim C3 counterexample: review count
2, every AI feature zero. -/
def cexMemory : MemoryState :=
  { userId := 1
    emotion := 0
    descriptionLength := 0
    tagsCount := 0
    reviewCount := 2
    lastScore := 0
    nextReview := 0
    reviewHistory := [] }

/-- Claim C3 (counterexample): the inline route logic and the reusable
module disagree.  At score 2 on a state with review count 2 (all other
features zero, accuracy rate 0) the route computes 3 days (the AI-predicted
base) while `calculateNextReview` with zero jitter computes 4 days. -/
theorem route_and_module_disagree :
    routeIntervalDays cexMemory 0 2 = 3 ∧
    calcIntervalDays 2 2 0 = 4 ∧
    routeIntervalDays cexMemory 0 2 ≠ calcIntervalDays 2 2 0 := by
  have hopt : optimizeReviewInterval cexMemory 0 = 3 := by
    norm_num [optimizeReviewInterval, predictOptimalInterval,
      extractMemoryFeatures, intervalWeights, jsRound, cexMemory,
      List.zipWith]
  have h1 : routeIntervalDays cexMemory 0 2 = 3 := by
    norm_num [routeIntervalDays, hopt]
  have h2 : calcIntervalDays 2 2 0 = 4 := by
    have h := zero_jitter_clamp (max 1 ((2 : ℤ) * 2)) (le_max_left 1 _)
    norm_num at h
    simpa [calcIntervalDays] using h
  refine ⟨h1, h2, ?_⟩
  rw [h1, h2]
  decide

/-- Claim C3 (amended): the two scheduling implementations agree only on
score 0 (Again): for every memory state, accuracy rate and review count the
route's inline interval and the module's zero-jitter interval are both
exactly one day there. -/
theorem route_and_module_agree_on_again (m : MemoryState)
    (accuracyRate : ℚ) (count : ℕ) :
    routeIntervalDays m accuracyRate 0 = calcIntervalDays 0 count 0 ∧
    routeIntervalDays m accuracyRate 0 = 1 := by
  have hmod : calcIntervalDays 0 count 0 = 1 := by
    simpa [calcIntervalDays] using zero_jitter_clamp 1 le_rfl
  have hroute : routeIntervalDays m accuracyRate 0 = 1 := by
    simp [routeIntervalDays]
  exact ⟨by rw [hroute, hmod], hroute⟩
